import Mathlib

/-!
Verification of the ElGamal encryption library over the Ristretto group
(`elgamal-curve25519`, `src/lib.rs`).

The library is written against `curve25519_dalek`: the Ristretto group is a
cyclic group of prime order
`q = 2^252 + 27742317777372353535851937790883648493`, with scalars the
integers modulo `q`.  The spec treats the group arithmetic, the point
compression codec and the scalar codec as external, already-correct
collaborators, so we model them by an exact mathematical image:

* a Ristretto point is represented by its discrete logarithm with respect to
  the base point — `RistrettoPoint` wraps an element of `ZMod q`, point
  addition/subtraction is addition/subtraction of logarithms, scalar
  multiplication is multiplication, and the base point has logarithm `1`
  (this representation is an isomorphism because the group is cyclic of
  prime order `q`);
* a 32-byte string, viewed through the codec, is either the canonical
  compressed encoding of a unique group element or an invalid string:
  `CompressedRistretto` is `valid p` or `invalid tag`, with `compress`
  producing the canonical encoding and `decompress` failing exactly on the
  invalid strings, as the Ristretto codec does;
* a 32-byte array fed to the scalar codec is modelled by its little-endian
  value, an element of `Fin (2^256)`; `Scalar::from_canonical_bytes` accepts
  exactly the values `< q` (dalek checks the high bit and canonicity, which
  together amount to the value being the least residue);
* `Scalar::from_hash` reduces a 64-byte digest modulo `q`; we model a digest
  by the scalar it reduces to;
* a random generator is modelled by the stream of scalars it would produce,
  given as a list (an empty suffix models an exhausted source and is mapped
  to an error; the real sampling loop would keep drawing).

Rust `Result<T, String>` becomes `Except String T` with the exact error
strings of the source.
-/

namespace ElGamal

/-- Decidable equality of `Except` results, so that concrete runs of the
fallible operations can be checked by evaluation. -/
instance {ε α : Type} [DecidableEq ε] [DecidableEq α] : DecidableEq (Except ε α) := fun a b =>
  match a, b with
  | .error e, .error f =>
    if h : e = f then .isTrue (by rw [h]) else .isFalse (fun hc => by cases hc; exact h rfl)
  | .error _, .ok _ => .isFalse (fun hc => by cases hc)
  | .ok _, .error _ => .isFalse (fun hc => by cases hc)
  | .ok x, .ok y =>
    if h : x = y then .isTrue (by rw [h]) else .isFalse (fun hc => by cases hc; exact h rfl)

/-- The order of the Ristretto basepoint, `2^252 + 27742317777372353535851937790883648493`
(the constant `BASEPOINT_ORDER` of `curve25519_dalek`, as an integer). -/
def BASEPOINT_ORDER_NAT : ℕ := 2 ^ 252 + 27742317777372353535851937790883648493

instance : NeZero BASEPOINT_ORDER_NAT := ⟨by norm_num [BASEPOINT_ORDER_NAT]⟩

/-- `curve25519_dalek::scalar::Scalar`: an integer modulo the group order. -/
abbrev Scalar := ZMod BASEPOINT_ORDER_NAT

/-- The constant `BASEPOINT_ORDER : Scalar` of `curve25519_dalek`: the group
order itself, reduced into the scalar field. -/
def BASEPOINT_ORDER : Scalar := (BASEPOINT_ORDER_NAT : Scalar)

/-- `curve25519_dalek::ristretto::RistrettoPoint`, represented by its discrete
logarithm with respect to the base point. -/
structure RistrettoPoint where
  log : Scalar
deriving DecidableEq

/-- Point addition (`+` on `RistrettoPoint`). -/
def RistrettoPoint.add (p r : RistrettoPoint) : RistrettoPoint :=
  ⟨p.log + r.log⟩

/-- Point subtraction (`-` on `RistrettoPoint`). -/
def RistrettoPoint.sub (p r : RistrettoPoint) : RistrettoPoint :=
  ⟨p.log - r.log⟩

/-- Scalar multiplication `s * p` of a point. -/
def RistrettoPoint.smul (s : Scalar) (p : RistrettoPoint) : RistrettoPoint :=
  ⟨s * p.log⟩

/-- The Ristretto base point (`RISTRETTO_BASEPOINT_TABLE` is its
precomputed-multiples table; multiplying the table by `s` is `s * B`). -/
def RISTRETTO_BASEPOINT : RistrettoPoint := ⟨1⟩

/-- `curve25519_dalek::ristretto::CompressedRistretto`: a 32-byte string,
viewed through the codec as either the canonical encoding of a group element
or one of the strings that fail to decompress (told apart by a tag). -/
inductive CompressedRistretto where
  /-- The canonical compressed encoding of the point `p`. -/
  | valid (p : RistrettoPoint)
  /-- A 32-byte string that is not a canonical encoding of any point. -/
  | invalid (tag : ℕ)
deriving DecidableEq

/-- `RistrettoPoint::compress`: the canonical encoding of a point. -/
def RistrettoPoint.compress (p : RistrettoPoint) : CompressedRistretto :=
  .valid p

/-- `CompressedRistretto::decompress`: succeeds exactly on canonical
encodings. -/
def CompressedRistretto.decompress : CompressedRistretto → Option RistrettoPoint
  | .valid p => some p
  | .invalid _ => none

/-- A 32-byte array fed to the scalar codec, modelled by its little-endian
integer value. -/
abbrev Bytes32 := Fin (2 ^ 256)

instance : NeZero (2 ^ 256 : ℕ) := ⟨by norm_num⟩

/-- `Scalar::from_canonical_bytes`: accepts exactly the byte strings whose
value is the least residue modulo the group order. -/
def Scalar.from_canonical_bytes (buf : Bytes32) : Option Scalar :=
  if buf.val < BASEPOINT_ORDER_NAT then some (buf.val : Scalar) else none

/-- `Message`: an ElGamal message, 32 bytes interpreted as a compressed
point. -/
structure Message where
  point : CompressedRistretto
deriving DecidableEq

/-- `Message::new`: wraps the bytes verbatim, no validation. -/
def Message.new (msg : CompressedRistretto) : Message :=
  ⟨msg⟩

/-- `Message::from_point`. -/
def Message.from_point (point : CompressedRistretto) : Message :=
  ⟨point⟩

/-- `Message::to_point`. -/
def Message.to_point (m : Message) : CompressedRistretto :=
  m.point

/-- `PrivateKey`: a wrapper around `Scalar`. -/
structure PrivateKey where
  scalar : Scalar
deriving DecidableEq

/-- `PrivateKey::to_scalar`. -/
def PrivateKey.to_scalar (k : PrivateKey) : Scalar :=
  k.scalar

/-- `PrivateKey::from_rng`: draw scalars from the generator, rejecting and
resampling while the draw is zero.  The generator is modelled by the list of
scalars it would produce; an exhausted list is mapped to an error (the real
loop would keep sampling). -/
def PrivateKey.from_rng : List Scalar → Except String PrivateKey
  | [] => .error "random source exhausted"
  | s :: rest =>
    if s = 0 then PrivateKey.from_rng rest else .ok ⟨s⟩

/-- `PrivateKey::new`: `from_rng` on the OS random source, whose draws are
modelled by the list `osSamples`. -/
def PrivateKey.new (osSamples : List Scalar) : Except String PrivateKey :=
  PrivateKey.from_rng osSamples

/-- `PrivateKey::from_hash`: the digest is modelled by the scalar it reduces
to; no zero check is performed. -/
def PrivateKey.from_hash (digest : Scalar) : PrivateKey :=
  ⟨digest⟩

/-- `PrivateKey::from_scalar`: rejects the zero scalar. -/
def PrivateKey.from_scalar (scalar : Scalar) : Except String PrivateKey :=
  if scalar = 0 then .error "0 scalar" else .ok ⟨scalar⟩

/-- `PrivateKey::from_slice`: accepts exactly canonical byte encodings. -/
def PrivateKey.from_slice (buf : Bytes32) : Except String PrivateKey :=
  match Scalar.from_canonical_bytes buf with
  | some scalar => .ok ⟨scalar⟩
  | none => .error "not canonical bytes"

/-- `PublicKey`: a wrapper around `CompressedRistretto`. -/
structure PublicKey where
  point : CompressedRistretto
deriving DecidableEq

/-- `PrivateKey::to_public`: `basePoint * private`, compressed. -/
def PrivateKey.to_public (k : PrivateKey) : PublicKey :=
  ⟨(RistrettoPoint.smul k.scalar RISTRETTO_BASEPOINT).compress⟩

/-- `PublicKey::from_private`. -/
def PublicKey.from_private (priv : PrivateKey) : PublicKey :=
  priv.to_public

/-- `PublicKey::new`. -/
def PublicKey.new (priv : PrivateKey) : PublicKey :=
  PublicKey.from_private priv

/-- `PublicKey::from_point`: wraps an arbitrary compressed element verbatim. -/
def PublicKey.from_point (point : CompressedRistretto) : PublicKey :=
  ⟨point⟩

/-- `PublicKey::to_point`. -/
def PublicKey.to_point (pk : PublicKey) : CompressedRistretto :=
  pk.point

/-- `KeyPair`: a pair of `PublicKey` and `PrivateKey`. -/
structure KeyPair where
  public_key : PublicKey
  private_key : PrivateKey
deriving DecidableEq

/-- `KeyPair::new`: generate a `PrivateKey` from the OS random source and
derive the `PublicKey` from it. -/
def KeyPair.new (osSamples : List Scalar) : Except String KeyPair :=
  match PrivateKey.new osSamples with
  | .error e => .error e
  | .ok private_key => .ok ⟨private_key.to_public, private_key⟩

/-- `KeyPair::from_rng`. -/
def KeyPair.from_rng (samples : List Scalar) : Except String KeyPair :=
  match PrivateKey.from_rng samples with
  | .error e => .error e
  | .ok private_key => .ok ⟨private_key.to_public, private_key⟩

/-- `KeyPair::from_hash`. -/
def KeyPair.from_hash (digest : Scalar) : KeyPair :=
  ⟨(PrivateKey.from_hash digest).to_public, PrivateKey.from_hash digest⟩

/-- `KeyPair::from_scalar`. -/
def KeyPair.from_scalar (scalar : Scalar) : Except String KeyPair :=
  match PrivateKey.from_scalar scalar with
  | .error e => .error e
  | .ok private_key => .ok ⟨private_key.to_public, private_key⟩

/-- `KeyPair::from_slice`. -/
def KeyPair.from_slice (buf : Bytes32) : Except String KeyPair :=
  match PrivateKey.from_slice buf with
  | .error e => .error e
  | .ok private_key => .ok ⟨private_key.to_public, private_key⟩

/-- `CypherText`: the pair `(gamma, delta)` of compressed points. -/
structure CypherText where
  gamma : CompressedRistretto
  delta : CompressedRistretto
deriving DecidableEq

/-- `encrypt`: ElGamal encryption of `msg` under recipient key `pk` with
ephemeral key `sk`. -/
def encrypt (msg : Message) (pk : PublicKey) (sk : PrivateKey) :
    Except String CypherText :=
  if sk.to_public.to_point = pk.to_point then
    .error "same private keys"
  else
    match pk.to_point.decompress with
    | some pk_point =>
      match msg.to_point.decompress with
      | some msg_point =>
        let sk_scalar := sk.to_scalar
        let shared := RistrettoPoint.smul sk_scalar pk_point
        let gamma_decomp := RistrettoPoint.smul sk_scalar RISTRETTO_BASEPOINT
        let delta_decomp := msg_point.add shared
        let gamma := gamma_decomp.compress
        let delta := delta_decomp.compress
        .ok ⟨gamma, delta⟩
      | none => .error "invalid message"
    | none => .error "invalid public key"

/-- `decrypt`: ElGamal decryption of `cyph` with the recipient key `sk`. -/
def decrypt (cyph : CypherText) (sk : PrivateKey) : Except String Message :=
  match cyph.gamma.decompress with
  | some gamma_point =>
    match cyph.delta.decompress with
    | some delta_point =>
      let sk_scalar := sk.to_scalar
      let inv_shared :=
        RistrettoPoint.smul (BASEPOINT_ORDER - 1 - sk_scalar) gamma_point
      let msg_point := delta_point.sub inv_shared
      .ok (Message.from_point msg_point.compress)
    | none => .error "invalid delta"
  | none => .error "invalid gamma"

/-- The round trip studied in §9 of the spec: encrypt `M` (given as a valid
group element) to the recipient key derived from `sA`, with ephemeral scalar
`sB`, then decrypt with `sA`; an encryption failure propagates. -/
def encrypt_then_decrypt (M : RistrettoPoint) (sA sB : Scalar) : Except String Message :=
  match encrypt (Message.from_point M.compress) (PrivateKey.mk sA).to_public ⟨sB⟩ with
  | .ok c => decrypt c ⟨sA⟩
  | .error e => .error e

/-- Claim C1: for every `CypherText` whose `gamma` and `delta` both decompress
to valid group elements and every `PrivateKey` `sk`, `decrypt` computes the
unmasking scalar `(groupOrder - 1 - sk) mod groupOrder`, multiplies `gamma` by
it, subtracts the result from `delta`, and returns `Ok` of a `Message`
wrapping the compressed result, performing no validity check on the recovered
point. -/
theorem decrypt_unmask_formula (cyph : CypherText) (sk : PrivateKey)
    (gp dp : RistrettoPoint)
    (hg : cyph.gamma.decompress = some gp)
    (hd : cyph.delta.decompress = some dp) :
    decrypt cyph sk =
      .ok (Message.from_point
        ((dp.sub
          (RistrettoPoint.smul (BASEPOINT_ORDER - 1 - sk.to_scalar) gp)).compress)) := by
  simp only [decrypt, hg, hd]

/-- Witness for C1: a concrete valid ciphertext and key. -/
theorem decrypt_unmask_formula_witness :
    decrypt ⟨(RistrettoPoint.mk 2).compress, (RistrettoPoint.mk 3).compress⟩ ⟨1⟩ =
      .ok (Message.from_point
        (((RistrettoPoint.mk 3).sub
          (RistrettoPoint.smul (BASEPOINT_ORDER - 1 - (PrivateKey.mk 1).to_scalar)
            (RistrettoPoint.mk 2))).compress)) :=
  decrypt_unmask_formula _ _ ⟨2⟩ ⟨3⟩ rfl rfl

/-- Claim C3: for every `Message` `msg`, `PublicKey` `pk` and `PrivateKey`
`sk` such that the degenerate-key guard passes and both `pk` and `msg`
decompress to valid group elements, `encrypt` returns
`Ok (CypherText{gamma, delta})` with `gamma` the compressed encoding of
`basePoint * sk` and `delta` the compressed encoding of
`decompress(msg) + decompress(pk) * sk`. -/
theorem encrypt_ok_formula (msg : Message) (pk : PublicKey) (sk : PrivateKey)
    (P M : RistrettoPoint)
    (hguard : sk.to_public.to_point ≠ pk.to_point)
    (hpk : pk.to_point.decompress = some P)
    (hmsg : msg.to_point.decompress = some M) :
    encrypt msg pk sk =
      .ok ⟨(RistrettoPoint.smul sk.to_scalar RISTRETTO_BASEPOINT).compress,
           (M.add (RistrettoPoint.smul sk.to_scalar P)).compress⟩ := by
  simp only [encrypt, if_neg hguard, hpk, hmsg]

/-- Witness for C3: a concrete message, recipient key and ephemeral key. -/
theorem encrypt_ok_formula_witness :
    encrypt (Message.from_point (RistrettoPoint.mk 3).compress)
        (PublicKey.from_point (RistrettoPoint.mk 2).compress) ⟨1⟩ =
      .ok ⟨(RistrettoPoint.smul (PrivateKey.mk 1).to_scalar RISTRETTO_BASEPOINT).compress,
           ((RistrettoPoint.mk 3).add
             (RistrettoPoint.smul (PrivateKey.mk 1).to_scalar (RistrettoPoint.mk 2))).compress⟩ :=
  encrypt_ok_formula _ _ _ ⟨2⟩ ⟨3⟩ (by decide) rfl rfl

/-- Claim C4: for every `Message` `msg`, `PublicKey` `pk` and `PrivateKey`
`sk`, whenever the public key derived from `sk` equals `pk` bytewise,
`encrypt` fails with the degenerate-key error, for all `msg` — the guard
fires before any decompression or validation of `pk` or `msg`. -/
theorem encrypt_degenerate_key (msg : Message) (pk : PublicKey) (sk : PrivateKey)
    (h : sk.to_public.to_point = pk.to_point) :
    encrypt msg pk sk = .error "same private keys" := by
  simp only [encrypt, if_pos h]

/-- Witness for C4: the message is an invalid encoding, yet the degenerate-key
error is still what comes back. -/
theorem encrypt_degenerate_key_witness :
    encrypt (Message.new (CompressedRistretto.invalid 0)) (PrivateKey.mk 1).to_public ⟨1⟩ =
      .error "same private keys" :=
  encrypt_degenerate_key _ _ _ (by decide)

/-- Claim C5: in `encrypt`, when the degenerate-key guard passes: if the
recipient `PublicKey` fails to decompress, the result is the
invalid-public-key error (whatever the message is); if it decompresses but
the `Message` fails to decompress, the result is the distinct invalid-message
error.  The decompression checks precede the scalar multiplications in the
program text; their observable content is this error precedence. -/
theorem encrypt_validation_errors :
    (∀ (msg : Message) (pk : PublicKey) (sk : PrivateKey),
      sk.to_public.to_point ≠ pk.to_point →
      pk.to_point.decompress = none →
      encrypt msg pk sk = .error "invalid public key") ∧
    (∀ (msg : Message) (pk : PublicKey) (sk : PrivateKey) (P : RistrettoPoint),
      sk.to_public.to_point ≠ pk.to_point →
      pk.to_point.decompress = some P →
      msg.to_point.decompress = none →
      encrypt msg pk sk = .error "invalid message") := by
  constructor
  · intro msg pk sk hguard hpk
    simp only [encrypt, if_neg hguard, hpk]
  · intro msg pk sk P hguard hpk hmsg
    simp only [encrypt, if_neg hguard, hpk, hmsg]

/-- Witness for C5: concrete invalid public key (with an invalid message, the
public-key error wins), then a valid public key with an invalid message. -/
theorem encrypt_validation_errors_witness :
    encrypt (Message.new (CompressedRistretto.invalid 1))
        (PublicKey.from_point (CompressedRistretto.invalid 0)) ⟨1⟩ =
      .error "invalid public key" ∧
    encrypt (Message.new (CompressedRistretto.invalid 1))
        (PublicKey.from_point (RistrettoPoint.mk 2).compress) ⟨1⟩ =
      .error "invalid message" :=
  ⟨encrypt_validation_errors.1 _ _ _ (by decide) rfl,
   encrypt_validation_errors.2 _ _ _ ⟨2⟩ (by decide) rfl rfl⟩

/-- Claim C6: for every `CypherText` and `PrivateKey`, if `gamma` fails to
decompress the result is the invalid-gamma error; if `gamma` decompresses but
`delta` fails the result is the invalid-delta error; and `decrypt` returns
`Ok` only when both fields decompress, so it never silently returns a
`Message` for an invalid ciphertext. -/
theorem decrypt_validation_errors :
    (∀ (cyph : CypherText) (sk : PrivateKey),
      cyph.gamma.decompress = none →
      decrypt cyph sk = .error "invalid gamma") ∧
    (∀ (cyph : CypherText) (sk : PrivateKey) (gp : RistrettoPoint),
      cyph.gamma.decompress = some gp →
      cyph.delta.decompress = none →
      decrypt cyph sk = .error "invalid delta") ∧
    (∀ (cyph : CypherText) (sk : PrivateKey) (m : Message),
      decrypt cyph sk = .ok m →
      cyph.gamma.decompress.isSome ∧ cyph.delta.decompress.isSome) := by
  refine ⟨?_, ?_, ?_⟩
  · intro cyph sk hg
    simp only [decrypt, hg]
  · intro cyph sk gp hg hd
    simp only [decrypt, hg, hd]
  · intro cyph sk m h
    cases hg : cyph.gamma.decompress with
    | none => simp only [decrypt, hg] at h; exact absurd h (by simp)
    | some gp =>
      cases hd : cyph.delta.decompress with
      | none => simp only [decrypt, hg, hd] at h; exact absurd h (by simp)
      | some dp => exact ⟨rfl, rfl⟩

/-- Witness for C6: concrete invalid gamma, then valid gamma with invalid
delta, then a fully valid ciphertext on which `decrypt` succeeds. -/
theorem decrypt_validation_errors_witness :
    decrypt ⟨CompressedRistretto.invalid 0, CompressedRistretto.invalid 1⟩ ⟨1⟩ =
      .error "invalid gamma" ∧
    decrypt ⟨(RistrettoPoint.mk 2).compress, CompressedRistretto.invalid 1⟩ ⟨1⟩ =
      .error "invalid delta" ∧
    ((CypherText.mk (RistrettoPoint.mk 2).compress
        (RistrettoPoint.mk 3).compress).gamma.decompress.isSome ∧
     (CypherText.mk (RistrettoPoint.mk 2).compress
        (RistrettoPoint.mk 3).compress).delta.decompress.isSome) :=
  ⟨decrypt_validation_errors.1 _ ⟨1⟩ rfl,
   decrypt_validation_errors.2.1 _ ⟨1⟩ ⟨2⟩ rfl rfl,
   decrypt_validation_errors.2.2 _ ⟨1⟩
     (Message.from_point
       (((RistrettoPoint.mk 3).sub
         (RistrettoPoint.smul (BASEPOINT_ORDER - 1 - (1 : Scalar))
           (RistrettoPoint.mk 2))).compress)) rfl⟩

/-- Every `PrivateKey` that `from_rng` actually returns was a nonzero draw:
the sampling loop rejects zero. -/
theorem from_rng_ok_ne_zero :
    ∀ (samples : List Scalar) (k : PrivateKey),
      PrivateKey.from_rng samples = .ok k → k.scalar ≠ 0
  | [], k, h => by simp only [PrivateKey.from_rng] at h; exact absurd h (by simp)
  | s :: rest, k, h => by
    simp only [PrivateKey.from_rng] at h
    split at h
    next => exact from_rng_ok_ne_zero rest k h
    next hs => cases h; exact hs

/-- A scalar is nonzero exactly when its least residue lies strictly in
`[1, q-1]`. -/
theorem scalar_ne_zero_iff_val_range (s : Scalar) :
    s ≠ 0 ↔ 1 ≤ s.val ∧ s.val ≤ BASEPOINT_ORDER_NAT - 1 := by
  constructor
  · intro h
    refine ⟨Nat.one_le_iff_ne_zero.mpr (fun h0 => h ?_), ?_⟩
    · exact (ZMod.val_eq_zero s).mp h0
    · exact Nat.le_sub_one_of_lt (ZMod.val_lt s)
  · rintro ⟨h1, -⟩ h0
    rw [h0] at h1
    simp [ZMod.val_zero] at h1

/-- Claim C7: every `KeyPair` produced by `new`, `from_rng`, `from_hash`,
`from_scalar` or `from_slice` satisfies `public_key = basePoint * private_key`
(the public half is always recomputed from the derived private key), and a
private-key validation failure propagates as the `KeyPair` constructor's
failure. -/
theorem keypair_pairing_invariant :
    (∀ (osSamples : List Scalar) (kp : KeyPair),
      KeyPair.new osSamples = .ok kp → kp.public_key = kp.private_key.to_public) ∧
    (∀ (samples : List Scalar) (kp : KeyPair),
      KeyPair.from_rng samples = .ok kp → kp.public_key = kp.private_key.to_public) ∧
    (∀ digest : Scalar,
      (KeyPair.from_hash digest).public_key =
        (KeyPair.from_hash digest).private_key.to_public) ∧
    (∀ (s : Scalar) (kp : KeyPair),
      KeyPair.from_scalar s = .ok kp → kp.public_key = kp.private_key.to_public) ∧
    (∀ (buf : Bytes32) (kp : KeyPair),
      KeyPair.from_slice buf = .ok kp → kp.public_key = kp.private_key.to_public) ∧
    (∀ (samples : List Scalar) (e : String),
      PrivateKey.from_rng samples = .error e → KeyPair.from_rng samples = .error e) ∧
    (∀ (s : Scalar) (e : String),
      PrivateKey.from_scalar s = .error e → KeyPair.from_scalar s = .error e) ∧
    (∀ (buf : Bytes32) (e : String),
      PrivateKey.from_slice buf = .error e → KeyPair.from_slice buf = .error e) := by
  refine ⟨?_, ?_, ?_, ?_, ?_, ?_, ?_, ?_⟩
  · intro l kp h
    cases hp : PrivateKey.new l with
    | error e => simp only [KeyPair.new, hp] at h; exact absurd h (by simp)
    | ok k => simp only [KeyPair.new, hp] at h; cases h; rfl
  · intro l kp h
    cases hp : PrivateKey.from_rng l with
    | error e => simp only [KeyPair.from_rng, hp] at h; exact absurd h (by simp)
    | ok k => simp only [KeyPair.from_rng, hp] at h; cases h; rfl
  · intro digest
    rfl
  · intro s kp h
    cases hp : PrivateKey.from_scalar s with
    | error e => simp only [KeyPair.from_scalar, hp] at h; exact absurd h (by simp)
    | ok k => simp only [KeyPair.from_scalar, hp] at h; cases h; rfl
  · intro buf kp h
    cases hp : PrivateKey.from_slice buf with
    | error e => simp only [KeyPair.from_slice, hp] at h; exact absurd h (by simp)
    | ok k => simp only [KeyPair.from_slice, hp] at h; cases h; rfl
  · intro l e h
    simp only [KeyPair.from_rng, h]
  · intro s e h
    simp only [KeyPair.from_scalar, h]
  · intro buf e h
    simp only [KeyPair.from_slice, h]

/-- Witness for C7: concrete runs of every constructor (the random paths on a
stream whose first draw is zero, showing the resample), plus concrete error
propagation for each fallible path. -/
theorem keypair_pairing_invariant_witness :
    (KeyPair.mk (PrivateKey.to_public ⟨5⟩) ⟨5⟩).public_key =
      (KeyPair.mk (PrivateKey.to_public ⟨5⟩) ⟨5⟩).private_key.to_public ∧
    (KeyPair.mk (PrivateKey.to_public ⟨7⟩) ⟨7⟩).public_key =
      (KeyPair.mk (PrivateKey.to_public ⟨7⟩) ⟨7⟩).private_key.to_public ∧
    (KeyPair.from_hash 11).public_key = (KeyPair.from_hash 11).private_key.to_public ∧
    (KeyPair.mk (PrivateKey.to_public ⟨3⟩) ⟨3⟩).public_key =
      (KeyPair.mk (PrivateKey.to_public ⟨3⟩) ⟨3⟩).private_key.to_public ∧
    (KeyPair.mk (PrivateKey.to_public ⟨9⟩) ⟨9⟩).public_key =
      (KeyPair.mk (PrivateKey.to_public ⟨9⟩) ⟨9⟩).private_key.to_public ∧
    KeyPair.from_rng [] = .error "random source exhausted" ∧
    KeyPair.from_scalar 0 = .error "0 scalar" ∧
    KeyPair.from_slice ⟨BASEPOINT_ORDER_NAT, by decide⟩ = .error "not canonical bytes" :=
  ⟨keypair_pairing_invariant.1 [0, 5] _ (by decide),
   keypair_pairing_invariant.2.1 [0, 7] _ (by decide),
   keypair_pairing_invariant.2.2.1 11,
   keypair_pairing_invariant.2.2.2.1 3 _ (by decide),
   keypair_pairing_invariant.2.2.2.2.1 9 ⟨PrivateKey.to_public ⟨9⟩, ⟨9⟩⟩ (by decide),
   keypair_pairing_invariant.2.2.2.2.2.1 [] "random source exhausted" (by decide),
   keypair_pairing_invariant.2.2.2.2.2.2.1 0 "0 scalar" (by decide),
   keypair_pairing_invariant.2.2.2.2.2.2.2 ⟨BASEPOINT_ORDER_NAT, by decide⟩
     "not canonical bytes" (by decide)⟩

/-- Counterexample to C8 as stated: `PrivateKey.from_slice` accepts the
all-zero 32-byte array (its value `0` is canonical) and yields the zero
scalar, which is not strictly in `[1, q-1]`; so zero is not rejected at every
construction path. -/
theorem privatekey_zero_escape_cex :
    PrivateKey.from_slice 0 = .ok ⟨0⟩ ∧
    (PrivateKey.mk 0).scalar.val = 0 ∧
    ¬ (1 ≤ (PrivateKey.mk 0).scalar.val) := by decide

/-- Claim C8 (amended): every `PrivateKey` produced by `new`, `from_rng` or
`from_scalar` holds a scalar strictly in `[1, q-1]`; `from_hash` performs no
zero check (a digest reducing to zero yields the zero scalar) and
`from_slice` accepts the canonical all-zero encoding, yielding the zero
scalar. -/
theorem privatekey_nonzero_paths :
    (∀ (osSamples : List Scalar) (k : PrivateKey),
      PrivateKey.new osSamples = .ok k →
        1 ≤ k.scalar.val ∧ k.scalar.val ≤ BASEPOINT_ORDER_NAT - 1) ∧
    (∀ (samples : List Scalar) (k : PrivateKey),
      PrivateKey.from_rng samples = .ok k →
        1 ≤ k.scalar.val ∧ k.scalar.val ≤ BASEPOINT_ORDER_NAT - 1) ∧
    (∀ (s : Scalar) (k : PrivateKey),
      PrivateKey.from_scalar s = .ok k →
        1 ≤ k.scalar.val ∧ k.scalar.val ≤ BASEPOINT_ORDER_NAT - 1) ∧
    (PrivateKey.from_hash 0).scalar = 0 ∧
    PrivateKey.from_slice 0 = .ok ⟨0⟩ := by
  refine ⟨?_, ?_, ?_, rfl, by decide⟩
  · intro l k h
    exact (scalar_ne_zero_iff_val_range _).mp (from_rng_ok_ne_zero l k h)
  · intro l k h
    exact (scalar_ne_zero_iff_val_range _).mp (from_rng_ok_ne_zero l k h)
  · intro s k h
    simp only [PrivateKey.from_scalar] at h
    split at h
    next => exact absurd h (by simp)
    next hs => cases h; exact (scalar_ne_zero_iff_val_range _).mp hs

/-- Witness for C8 (amended): a zero draw is resampled away, `from_scalar`
keeps a nonzero scalar, and both facts are checked on the resulting least
residues. -/
theorem privatekey_nonzero_paths_witness :
    (1 ≤ (PrivateKey.mk 5).scalar.val ∧
      (PrivateKey.mk 5).scalar.val ≤ BASEPOINT_ORDER_NAT - 1) ∧
    (1 ≤ (PrivateKey.mk 7).scalar.val ∧
      (PrivateKey.mk 7).scalar.val ≤ BASEPOINT_ORDER_NAT - 1) ∧
    (1 ≤ (PrivateKey.mk 3).scalar.val ∧
      (PrivateKey.mk 3).scalar.val ≤ BASEPOINT_ORDER_NAT - 1) :=
  ⟨privatekey_nonzero_paths.1 [0, 5] ⟨5⟩ (by decide),
   privatekey_nonzero_paths.2.1 [0, 7] ⟨7⟩ (by decide),
   privatekey_nonzero_paths.2.2.1 3 ⟨3⟩ (by decide)⟩

/-- Claim C9: `PrivateKey.from_slice` on the all-zero 32-byte array returns
`Ok` (the zero encoding is canonical) with the zero scalar inside, while
`from_scalar` rejects the zero scalar with an error. -/
theorem from_slice_zero_vs_from_scalar_zero :
    PrivateKey.from_slice 0 = .ok ⟨(0 : Scalar)⟩ ∧
    (PrivateKey.mk (0 : Scalar)).scalar = 0 ∧
    PrivateKey.from_scalar 0 = .error "0 scalar" := by decide

/-- Claim C2: a concrete message `M = 0 * B` (a valid group element) and key
pairs with distinct nonzero scalars `1` and `2` for which
`decrypt (encrypt m A.public_key B.private_key) A.private_key` returns `Ok`
of a different message: the scheme does not satisfy
`decrypt (encrypt m) = m`. -/
theorem roundtrip_not_identity :
    ∃ (m : Message) (sA sB : Scalar) (a b : KeyPair) (c : CypherText) (r : Message),
      sA ≠ 0 ∧ sB ≠ 0 ∧ sA ≠ sB ∧
      KeyPair.from_scalar sA = .ok a ∧
      KeyPair.from_scalar sB = .ok b ∧
      m.to_point.decompress = some ⟨0⟩ ∧
      encrypt m a.public_key b.private_key = .ok c ∧
      decrypt c a.private_key = .ok r ∧
      r ≠ m :=
  ⟨Message.from_point (RistrettoPoint.mk 0).compress, 1, 2,
   ⟨PrivateKey.to_public ⟨1⟩, ⟨1⟩⟩, ⟨PrivateKey.to_public ⟨2⟩, ⟨2⟩⟩,
   ⟨(RistrettoPoint.mk 2).compress, (RistrettoPoint.mk 2).compress⟩,
   Message.from_point (RistrettoPoint.mk 6).compress,
   by decide⟩

/-- Claim C10: scalar arithmetic is modulo the group order `q`, so the
unmasking scalar `q - 1 - sk` equals `-(1 + sk)`; hence on a valid ciphertext
`decrypt` returns the compressed encoding of `delta + (1 + sk) * gamma`, and
for valid keys (distinct scalars, so that the guard passes) and a valid
message the round trip yields `m + (2*sA + 1)*sB * basePoint`. -/
theorem decrypt_algebraic_identity :
    (∀ sk : Scalar, BASEPOINT_ORDER - 1 - sk = -(1 + sk)) ∧
    (∀ (cyph : CypherText) (sk : PrivateKey) (gp dp : RistrettoPoint),
      cyph.gamma.decompress = some gp →
      cyph.delta.decompress = some dp →
      decrypt cyph sk =
        .ok (Message.from_point
          ((dp.add (RistrettoPoint.smul (1 + sk.to_scalar) gp)).compress))) ∧
    (∀ (M : RistrettoPoint) (sA sB : Scalar), sA ≠ sB →
      encrypt_then_decrypt M sA sB =
        .ok (Message.from_point
          ((M.add
            (RistrettoPoint.smul ((2 * sA + 1) * sB) RISTRETTO_BASEPOINT)).compress))) := by
  refine ⟨?_, ?_, ?_⟩
  · intro sk
    rw [BASEPOINT_ORDER, ZMod.natCast_self]
    ring
  · intro cyph sk gp dp hg hd
    have key : dp.log - (BASEPOINT_ORDER - 1 - sk.to_scalar) * gp.log
        = dp.log + (1 + sk.to_scalar) * gp.log := by
      rw [BASEPOINT_ORDER, ZMod.natCast_self]
      ring
    simp only [decrypt, hg, hd, RistrettoPoint.sub, RistrettoPoint.smul,
      RistrettoPoint.add, key]
  · intro M sA sB hne
    have hguard :
        CompressedRistretto.valid (RistrettoPoint.smul sB RISTRETTO_BASEPOINT) ≠
          CompressedRistretto.valid (RistrettoPoint.smul sA RISTRETTO_BASEPOINT) := by
      simp only [ne_eq, CompressedRistretto.valid.injEq, RistrettoPoint.smul,
        RISTRETTO_BASEPOINT, RistrettoPoint.mk.injEq, mul_one]
      exact fun h => hne h.symm
    have henc :
        encrypt (Message.from_point M.compress) (PrivateKey.mk sA).to_public ⟨sB⟩ =
          .ok ⟨(RistrettoPoint.smul sB RISTRETTO_BASEPOINT).compress,
               (M.add (RistrettoPoint.smul sB
                 (RistrettoPoint.smul sA RISTRETTO_BASEPOINT))).compress⟩ := by
      simp only [encrypt, PrivateKey.to_public, PublicKey.to_point,
        RistrettoPoint.compress, CompressedRistretto.decompress, Message.from_point,
        Message.to_point, PrivateKey.to_scalar, if_neg hguard]
    have key : (M.log + sB * (sA * 1)) - (BASEPOINT_ORDER - 1 - sA) * (sB * 1)
        = M.log + (2 * sA + 1) * sB * 1 := by
      rw [BASEPOINT_ORDER, ZMod.natCast_self]
      ring
    simp only [encrypt_then_decrypt, henc]
    simp only [decrypt, CompressedRistretto.decompress, RistrettoPoint.compress,
      RistrettoPoint.smul, RistrettoPoint.add, RistrettoPoint.sub,
      Message.from_point, PrivateKey.to_scalar, RISTRETTO_BASEPOINT, key]

/-- Witness for C10: the identity at `sk = 5`, a concrete valid ciphertext,
and the concrete round trip with `M = 0 * B`, `sA = 1`, `sB = 2`, landing on
`m + 6 * B`. -/
theorem decrypt_algebraic_identity_witness :
    (BASEPOINT_ORDER - 1 - (5 : Scalar) = -(1 + 5)) ∧
    decrypt ⟨(RistrettoPoint.mk 4).compress, (RistrettoPoint.mk 9).compress⟩ ⟨3⟩ =
      .ok (Message.from_point
        (((RistrettoPoint.mk 9).add
          (RistrettoPoint.smul (1 + (PrivateKey.mk 3).to_scalar)
            (RistrettoPoint.mk 4))).compress)) ∧
    encrypt_then_decrypt ⟨0⟩ 1 2 =
      .ok (Message.from_point
        (((RistrettoPoint.mk 0).add
          (RistrettoPoint.smul ((2 * 1 + 1) * 2) RISTRETTO_BASEPOINT)).compress)) :=
  ⟨decrypt_algebraic_identity.1 5,
   decrypt_algebraic_identity.2.1 _ _ ⟨4⟩ ⟨9⟩ rfl rfl,
   decrypt_algebraic_identity.2.2 ⟨0⟩ 1 2 (by decide)⟩

end ElGamal
